import Mathlib

/-!
Verification of the core subsystems of the `personal_fin_ai` backend
(`backend/app/parser.py`, `backend/app/forecaster.py`, `backend/app/alerter.py`,
`backend/app/categorizer.py`, `backend/app/models.py`) as a shallow embedding.

Modelling conventions:
* Python `float` / `Decimal` values are modelled as exact rationals (`ℚ`);
  binary-float rounding, `nan`/`inf` string spellings and underscore digit
  grouping accepted by `float()` are outside the model (a CSV cell that is
  literally missing is modelled by the distinguished `PyVal.nan` value).
* Python strings are Lean `String`s, manipulated through their character lists.
* Fallible Python code (functions that raise) is modelled with `Option`/`Except`.
* `json.loads` is embedded as a strict JSON parser (`jsonLoads`); objects keep
  their key/value pairs in source order and lookups take the last occurrence of
  a key, matching Python dict construction semantics.
-/

set_option maxRecDepth 4096

namespace FinAI

/-- The ASCII whitespace characters recognised by Python's `str.strip()` and by
the `\s` regex class (the unicode-only whitespace code points are not used by
any input in scope). -/
def isPyWs (c : Char) : Bool :=
  c = ' ' || c = '\t' || c = '\n' || c = '\r' || c = '\x0b' || c = '\x0c'

/-- `str.strip()` on a character list: drop whitespace from both ends. -/
def pyStripL (cs : List Char) : List Char :=
  ((cs.dropWhile isPyWs).reverse.dropWhile isPyWs).reverse

/-- `str.strip()` on strings. -/
def pyStrip (s : String) : String :=
  ⟨pyStripL s.toList⟩

/-- `l₂.startswith l₁)` on character lists. -/
def startsWithL : List Char → List Char → Bool
  | [], _ => true
  | _ :: _, [] => false
  | p :: ps, c :: cs => p = c && startsWithL ps cs

/-- `l₂.endswith l₁)` on character lists. -/
def endsWithL (p l : List Char) : Bool :=
  startsWithL p.reverse l.reverse

/-- Numeric value of a decimal digit character. -/
def digitVal (c : Char) : ℕ := c.toNat - 48

/-- The natural number denoted by a list of decimal digit characters. -/
def natOfDigits (ds : List Char) : ℕ :=
  ds.foldl (fun a c => a * 10 + digitVal c) 0

/-- The whitespace characters `json.loads` skips between tokens (space, tab,
line feed, carriage return). -/
def isJsonWs (c : Char) : Bool :=
  c = ' ' || c = '\t' || c = '\n' || c = '\r'

/-- Skip leading JSON whitespace. -/
def skipWs (cs : List Char) : List Char := cs.dropWhile isJsonWs

/-! ### JSON values and `json.loads` -/

/-- JSON values as produced by Python's `json.loads`. -/
inductive Json where
  | null
  | bool (b : Bool)
  | num (q : ℚ)
  | str (s : String)
  | arr (elems : List Json)
  | obj (fields : List (String × Json))

/-- Python dict lookup `d.get(k)` on a parsed object: the *last* binding of a
key wins, as in CPython dict construction. -/
def objGet (kvs : List (String × Json)) (k : String) : Option Json :=
  (kvs.reverse.find? (fun p => p.1 == k)).map (·.2)

/-- Truthiness of a JSON value under Python's `if value:`. -/
def pyTruthy : Json → Bool
  | .null => false
  | .bool b => b
  | .num q => q ≠ 0
  | .str s => s ≠ ""
  | .arr xs => !xs.isEmpty
  | .obj kvs => !kvs.isEmpty

/-- Value of a hexadecimal digit character, if it is one. -/
def hexVal (c : Char) : Option ℕ :=
  if c.isDigit then some (c.toNat - 48)
  else if 'a' ≤ c && c ≤ 'f' then some (c.toNat - 87)
  else if 'A' ≤ c && c ≤ 'F' then some (c.toNat - 55)
  else none

/-- Body of a JSON string literal (after the opening quote); returns the decoded
string and the remaining input after the closing quote. -/
def parseJsonStringAux : List Char → List Char → Option (String × List Char)
  | acc, '"' :: r => some (⟨acc.reverse⟩, r)
  | acc, '\\' :: 'u' :: a :: b :: c :: d :: r =>
    match hexVal a, hexVal b, hexVal c, hexVal d with
    | some ha, some hb, some hc, some hd =>
      parseJsonStringAux (Char.ofNat (((ha * 16 + hb) * 16 + hc) * 16 + hd) :: acc) r
    | _, _, _, _ => none
  | acc, '\\' :: e :: r =>
    if e = '"' then parseJsonStringAux ('"' :: acc) r
    else if e = '\\' then parseJsonStringAux ('\\' :: acc) r
    else if e = '/' then parseJsonStringAux ('/' :: acc) r
    else if e = 'b' then parseJsonStringAux ('\x08' :: acc) r
    else if e = 'f' then parseJsonStringAux ('\x0c' :: acc) r
    else if e = 'n' then parseJsonStringAux ('\n' :: acc) r
    else if e = 'r' then parseJsonStringAux ('\r' :: acc) r
    else if e = 't' then parseJsonStringAux ('\t' :: acc) r
    else none
  | acc, c :: r => if c.toNat < 32 then none else parseJsonStringAux (c :: acc) r
  | _, [] => none

/-- A JSON string literal body, rejecting raw control characters. -/
def parseJsonString (cs : List Char) : Option (String × List Char) :=
  parseJsonStringAux [] cs

/-- Fractional part of a JSON/Python number: `.digits`, or nothing. -/
def parseFrac : List Char → Option (ℚ × List Char)
  | '.' :: r =>
    let (ds, rest) := r.span Char.isDigit
    if ds.isEmpty then none
    else some ((natOfDigits ds : ℚ) / (10 : ℚ) ^ ds.length, rest)
  | cs => some (0, cs)

/-- Exponent part of a JSON/Python number: `[eE][+-]?digits`, or nothing. -/
def parseExp : List Char → Option (ℤ × List Char)
  | c :: r =>
    if c = 'e' || c = 'E' then
      let (sgn, r1) : ℤ × List Char :=
        match r with
        | '+' :: r2 => (1, r2)
        | '-' :: r2 => (-1, r2)
        | _ => (1, r)
      let (ds, rest) := r1.span Char.isDigit
      if ds.isEmpty then none else some (sgn * (natOfDigits ds : ℤ), rest)
    else some (0, c :: r)
  | [] => some (0, [])

/-- Scale a rational by a (possibly negative) power of ten. -/
def applyExp (q : ℚ) (e : ℤ) : ℚ :=
  if 0 ≤ e then q * (10 : ℚ) ^ e.toNat else q / (10 : ℚ) ^ (-e).toNat

/-- A JSON number (strict grammar: optional `-`, no leading zeros, optional
fraction and exponent). -/
def parseJsonNumber (cs : List Char) : Option (ℚ × List Char) :=
  let (neg, cs1) : Bool × List Char :=
    match cs with
    | '-' :: r => (true, r)
    | _ => (false, cs)
  match cs1 with
  | [] => none
  | c :: r =>
    if !c.isDigit then none
    else if c = '0' && (r.head?.map Char.isDigit).getD false then none
    else
      let (ids, rest1) := (c :: r).span Char.isDigit
      match parseFrac rest1 with
      | none => none
      | some (fv, rest2) =>
        match parseExp rest2 with
        | none => none
        | some (e, rest3) =>
          let m := applyExp ((natOfDigits ids : ℚ) + fv) e
          some ((if neg then -m else m), rest3)

/-- Comma-separated JSON array elements up to the closing `]`, parameterised by
the parser used for one element. -/
def parseJsonElems (pv : List Char → Option (Json × List Char)) :
    ℕ → List Char → Option (List Json × List Char)
  | 0, _ => none
  | f + 1, cs =>
    match pv cs with
    | none => none
    | some (v, r) =>
      match skipWs r with
      | ',' :: r2 =>
        match parseJsonElems pv f r2 with
        | some (vs, r3) => some (v :: vs, r3)
        | none => none
      | ']' :: r2 => some ([v], r2)
      | _ => none

/-- Comma-separated JSON object members up to the closing brace, parameterised
by the parser used for one value. -/
def parseJsonFields (pv : List Char → Option (Json × List Char)) :
    ℕ → List Char → Option (List (String × Json) × List Char)
  | 0, _ => none
  | f + 1, cs =>
    match skipWs cs with
    | '"' :: r =>
      match parseJsonString r with
      | none => none
      | some (k, r1) =>
        match skipWs r1 with
        | ':' :: r2 =>
          match pv r2 with
          | none => none
          | some (v, r3) =>
            match skipWs r3 with
            | ',' :: r4 =>
              match parseJsonFields pv f r4 with
              | some (kvs, r5) => some ((k, v) :: kvs, r5)
              | none => none
            | '}' :: r4 => some ([(k, v)], r4)
            | _ => none
        | _ => none
    | _ => none

/-- One JSON value (fuel-indexed recursive descent, mirroring `json.loads`). -/
def parseJsonVal : ℕ → List Char → Option (Json × List Char)
  | 0, _ => none
  | f + 1, cs0 =>
    match skipWs cs0 with
    | [] => none
    | c :: r =>
      if c = '"' then (parseJsonString r).map (fun p => (Json.str p.1, p.2))
      else if c = '[' then
        match skipWs r with
        | ']' :: r2 => some (Json.arr [], r2)
        | r2 =>
          match parseJsonElems (parseJsonVal f) f r2 with
          | some (vs, rest) => some (Json.arr vs, rest)
          | none => none
      else if c = '{' then
        match skipWs r with
        | '}' :: r2 => some (Json.obj [], r2)
        | r2 =>
          match parseJsonFields (parseJsonVal f) f r2 with
          | some (kvs, rest) => some (Json.obj kvs, rest)
          | none => none
      else if c = 't' then
        if startsWithL ['r', 'u', 'e'] r then some (Json.bool true, r.drop 3) else none
      else if c = 'f' then
        if startsWithL ['a', 'l', 's', 'e'] r then some (Json.bool false, r.drop 4) else none
      else if c = 'n' then
        if startsWithL ['u', 'l', 'l'] r then some (Json.null, r.drop 3) else none
      else if c = '-' || c.isDigit then
        (parseJsonNumber (c :: r)).map (fun p => (Json.num p.1, p.2))
      else none

/-- `json.loads`: parse one JSON document, requiring the whole input (modulo
surrounding whitespace) to be consumed. -/
def jsonLoads (s : String) : Option Json :=
  let cs := s.toList
  match parseJsonVal (2 * cs.length + 2) cs with
  | some (v, rest) => if skipWs rest = [] then some v else none
  | none => none

/-! ### Plausibility reviewer (`forecaster.sanity_check_forecast`) -/

/-- The `llm_sanity_check` entry attached to a forecast.  Both fields hold raw
JSON values because the Python code stores whatever the parsed response
contained. -/
structure Plausibility where
  is_plausible : Json
  reason : Json

/-- The forecast dict produced by `forecast_with_prophet` (the charting tail
`forecast_df` and the metadata added later by `generate_forecast` are not part
of any claim and are omitted).  `predicted_amount` holds a JSON value because
the reviewer may overwrite it with an arbitrary field of the oracle's
response. -/
structure Forecast where
  category : Option String
  forecast_date : String
  predicted_amount : Json
  confidence_lower : ℚ
  confidence_upper : ℚ
  trend : ℚ
  weekly_seasonality : ℚ
  yearly_seasonality : ℚ
  adjusted : Option Bool := none
  llm_sanity_check : Option Plausibility := none

/-- Outcome of the `litellm.acompletion` call inside the `try` block: either the
call raised, or it returned a message whose `content` is an optional string. -/
inductive OracleOutcome where
  | failure
  | success (content : Option String)

/-- `response.choices[0].message.content or "{}"`: `None` and the empty string
are both replaced by `"{}"`. -/
def effectiveContent : Option String → String
  | some c => if c = "" then "\x7b\x7d" else c
  | none => "\x7b\x7d"

/-- What `json.loads` yields on the oracle outcome (`none` when the call failed
or the content does not parse). -/
def oracleParsed : OracleOutcome → Option Json
  | .failure => none
  | .success co => jsonLoads (effectiveContent co)

/-- The safe default written on any failure of the plausibility check. -/
def skipDefault : Plausibility :=
  ⟨Json.bool true, Json.str "Check skipped due to error"⟩

/-- The body of the `try` block of `sanity_check_forecast` after `json.loads`,
plus the `except` handler: on a parsed dict, apply a truthy
`suggested_adjustment` and attach the parsed verdict; on anything else
(`json.loads` failed, or `result.get` raised `AttributeError` on a non-dict)
the blanket `except` installs `skipDefault`. -/
def applyParsed (forecast : Forecast) : Option Json → Forecast
  | some (Json.obj kvs) =>
    let fc1 :=
      match objGet kvs "suggested_adjustment" with
      | some v =>
        if pyTruthy v then
          { forecast with predicted_amount := v, adjusted := some true }
        else forecast
      | none => forecast
    { fc1 with
        llm_sanity_check := some
          ⟨(objGet kvs "is_plausible").getD (Json.bool true),
           (objGet kvs "reason").getD (Json.str "No issues detected")⟩ }
  | _ => { forecast with llm_sanity_check := some skipDefault }

/-- `sanity_check_forecast` (forecaster.py lines 127-176): a failed completion
call goes straight to the `except` handler; a returned content string is
parsed and handled by `applyParsed`. -/
def sanity_check_forecast (forecast : Forecast) (outcome : OracleOutcome) : Forecast :=
  match outcome with
  | .failure => { forecast with llm_sanity_check := some skipDefault }
  | .success co => applyParsed forecast (jsonLoads (effectiveContent co))

/-! ### Alert decision engine (`alerter.check_spending_alert`) -/

/-- Alert priority levels (`AlertPriority` in alerter.py). -/
inductive AlertPriority where
  | low
  | medium
  | high
  | critical
deriving DecidableEq, Repr

/-- The dict returned by `check_spending_alert`: either only
`should_alert = False`, or the full record (with `pct_used` rounded to one
decimal place). -/
structure AlertDecision where
  should_alert : Bool
  priority : Option AlertPriority := none
  pct_used : Option ℚ := none
  over_budget : Option Bool := none
  over_threshold : Option Bool := none
deriving DecidableEq, Repr

/-- Round-half-to-even on rationals, the rounding used by Python's `round`
(floats are modelled as exact rationals, so the tie-breaking rule is the only
part of float `round` that matters here). -/
def roundHalfEven (q : ℚ) : ℤ :=
  let fl := ⌊q⌋
  if q - fl < 1 / 2 then fl
  else if 1 / 2 < q - fl then fl + 1
  else if fl % 2 = 0 then fl else fl + 1

/-- Python `round(x, 1)`. -/
def pyRound1 (q : ℚ) : ℚ := (roundHalfEven (q * 10) : ℚ) / 10

/-- `check_spending_alert` (alerter.py lines 66-100), a pure total function. -/
def check_spending_alert (spending budget_limit : ℚ)
    (budget_pct : ℚ := 110) (threshold : ℚ := 5000) : AlertDecision :=
  let pct_used : ℚ := if 0 < budget_limit then spending / budget_limit * 100 else 0
  let over_budget : Bool := budget_pct ≤ pct_used
  let over_threshold : Bool := threshold ≤ spending
  if 150 ≤ pct_used then
    ⟨true, some .critical, some (pyRound1 pct_used), some over_budget, some over_threshold⟩
  else if 125 ≤ pct_used then
    ⟨true, some .high, some (pyRound1 pct_used), some over_budget, some over_threshold⟩
  else if over_budget then
    ⟨true, some .medium, some (pyRound1 pct_used), some over_budget, some over_threshold⟩
  else if over_threshold then
    ⟨true, some .low, some (pyRound1 pct_used), some over_budget, some over_threshold⟩
  else ⟨false, none, none, none, none⟩

/-- Reference definition following the spec's words: `pct_used` with the
explicit zero-division guard. -/
def specPctUsed (spending budget_limit : ℚ) : ℚ :=
  if 0 < budget_limit then spending / budget_limit * 100 else 0

/-- Reference definition following the spec's words: the ordered table of
(threshold-predicate, tier) pairs, evaluated in fixed descending order. -/
def specTierTable (pct : ℚ) (over_budget over_threshold : Bool) :
    List (Bool × AlertPriority) :=
  [(decide (150 ≤ pct), .critical),
   (decide (125 ≤ pct), .high),
   (over_budget, .medium),
   (over_threshold, .low)]

/-- First-match-wins evaluation of an ordered tier table. -/
def firstMatch : List (Bool × AlertPriority) → Option AlertPriority
  | [] => none
  | (b, p) :: rest => if b then some p else firstMatch rest

/-- Reference definition following the spec's words: the alert decision as the
spec describes it (tier cascade, decision carrying only `should_alert = false`
when no tier fires). -/
def specEvaluate (spending budget_limit budget_pct threshold : ℚ) : AlertDecision :=
  let pct := specPctUsed spending budget_limit
  let over_budget : Bool := budget_pct ≤ pct
  let over_threshold : Bool := threshold ≤ spending
  match firstMatch (specTierTable pct over_budget over_threshold) with
  | some p => ⟨true, some p, some (pyRound1 pct), some over_budget, some over_threshold⟩
  | none => ⟨false, none, none, none, none⟩

/-! ### Notification dispatcher (`alerter.AlertService.send_spending_alert`) -/

/-- The result of a provider `send` primitive (`{success, error?}`; extra
provider-specific keys such as `message_sid` are not observed by any claim).
The provider's internal "not configured" early return is one possible value of
this record. -/
structure SendResult where
  success : Bool
  error : Option String := none
deriving DecidableEq, Repr

/-- A Twilio client handle, abstracted by the result its `send_sms` coroutine
returns for the dispatched message. -/
structure TwilioClient where
  sendResult : SendResult
deriving DecidableEq, Repr

/-- A Resend client handle, abstracted by the result its `send_email` coroutine
returns for the dispatched message. -/
structure ResendClient where
  sendResult : SendResult
deriving DecidableEq, Repr

/-- `AlertService`: the two optional provider handles supplied at
construction. -/
structure AlertService where
  twilio : Option TwilioClient := none
  resend : Option ResendClient := none
deriving DecidableEq, Repr

/-- `AlertConfig` (alerter.py lines 28-37). -/
structure AlertConfig where
  user_id : String
  budget_pct : ℚ := 110
  alert_threshold : ℚ := 5000
  sms_enabled : Bool := false
  email_enabled : Bool := true
  phone : Option String := none
  email : Option String := none
deriving DecidableEq, Repr

/-- `SpendingAlert` (alerter.py lines 49-58); it only feeds the message
builders, whose string output is not observed by any claim. -/
structure SpendingAlert where
  user_id : String
  category : String
  current_spending : ℚ
  budget_limit : ℚ
  budget_pct_used : ℚ
  is_over_budget : Bool
  is_over_threshold : Bool
  forecast_trend : Option String := none

/-- Truthiness of an optional string under Python's `if value:` (`None` and the
empty string are both falsy). -/
def pyTruthyOptStr : Option String → Bool
  | none => false
  | some s => s ≠ ""

/-- One entry of the list returned by `send_spending_alert`: the provider's
result dict with `"channel"` added. -/
structure DispatchResult where
  success : Bool
  error : Option String
  channel : String
deriving DecidableEq, Repr

/-- `AlertService.send_spending_alert` (alerter.py lines 254-286).  The message
payloads built by `build_sms_message` / `build_email_content` are passed to the
provider handles and do not influence control flow, so they are not modelled. -/
def send_spending_alert (svc : AlertService) (config : AlertConfig)
    (_alert : SpendingAlert) : List DispatchResult :=
  let smsResults : List DispatchResult :=
    match svc.twilio with
    | some tw =>
      if config.sms_enabled && pyTruthyOptStr config.phone then
        [⟨tw.sendResult.success, tw.sendResult.error, "sms"⟩]
      else []
    | none => []
  let emailResults : List DispatchResult :=
    match svc.resend with
    | some rs =>
      if config.email_enabled && pyTruthyOptStr config.email then
        [⟨rs.sendResult.success, rs.sendResult.error, "email"⟩]
      else []
    | none => []
  smsResults ++ emailResults

/-! ### CSV normalizer (`parser.CSVParser`) -/

/-- A `datetime.datetime` value (naive; no timezone appears in scope). -/
structure PyDateTime where
  year : ℕ
  month : ℕ
  day : ℕ
  hour : ℕ := 0
  minute : ℕ := 0
  second : ℕ := 0
deriving DecidableEq, Repr

/-- Zero-padded two-digit rendering. -/
def pad2 (n : ℕ) : String := if n < 10 then "0" ++ toString n else toString n

/-- Zero-padded four-digit rendering. -/
def pad4 (n : ℕ) : String :=
  if n < 10 then "000" ++ toString n
  else if n < 100 then "00" ++ toString n
  else if n < 1000 then "0" ++ toString n
  else toString n

/-- `str(datetime(...))`. -/
def fmtDatetime (d : PyDateTime) : String :=
  pad4 d.year ++ "-" ++ pad2 d.month ++ "-" ++ pad2 d.day ++ " " ++
    pad2 d.hour ++ ":" ++ pad2 d.minute ++ ":" ++ pad2 d.second

/-- `str(float)` for a decimal-representable rational: the exact decimal
expansion (Python prints the shortest round-tripping decimal; within this
model floats *are* exact decimal rationals, so the exact expansion is the
consistent rendering).  Only reachable when a numeric cell lands in a string
field, which no claim exercises. -/
def ratPyStr (q : ℚ) : String :=
  match (List.range 1201).find? (fun k => (q * ((10 ^ k : ℕ) : ℚ)).den == 1) with
  | some k =>
    let n : ℤ := (q * ((10 ^ k : ℕ) : ℚ)).num
    let ds := Nat.toDigits 10 n.natAbs
    let ds := if ds.length ≤ k then List.replicate (k + 1 - ds.length) '0' ++ ds else ds
    let ip : String := ⟨ds.take (ds.length - k)⟩
    let fp : String := ⟨ds.drop (ds.length - k)⟩
    (if q < 0 then "-" else "") ++ ip ++ "." ++ (if fp = "" then "0" else fp)
  | none => ""

/-- A Python value found in a CSV cell (or passed to the parser directly):
a number (`int`/`float`, exact), the float `nan` that pandas substitutes for a
missing cell, a string, or an already-typed datetime. -/
inductive PyVal where
  | num (q : ℚ)
  | nan
  | str (s : String)
  | datetime (d : PyDateTime)

/-- `str(value)` for the values above (the numeric branch is never consulted by
`parse_amount`, which handles numbers before stringifying). -/
def pyValStr : PyVal → String
  | .num q => ratPyStr q
  | .nan => "nan"
  | .str s => s
  | .datetime d => fmtDatetime d

/-- Python `float(string)` for finite decimal literals: optional sign,
digits with optional fraction, optional exponent, surrounded by optional
whitespace.  The `nan`/`inf` spellings and underscore digit grouping are
outside the model. -/
def pyFloatParse (cs0 : List Char) : Option ℚ :=
  let cs := pyStripL cs0
  let (neg, cs1) : Bool × List Char :=
    match cs with
    | '-' :: r => (true, r)
    | '+' :: r => (false, r)
    | _ => (false, cs)
  let (ids, r1) := cs1.span Char.isDigit
  match r1 with
  | '.' :: r2 =>
    let (fds, r3) := r2.span Char.isDigit
    if ids.isEmpty && fds.isEmpty then none
    else
      match parseExp r3 with
      | some (e, []) =>
        let m := applyExp ((natOfDigits ids : ℚ) + (natOfDigits fds : ℚ) / (10 : ℚ) ^ fds.length) e
        some (if neg then -m else m)
      | _ => none
  | _ =>
    if ids.isEmpty then none
    else
      match parseExp r1 with
      | some (e, []) =>
        let m := applyExp (natOfDigits ids : ℚ) e
        some (if neg then -m else m)
      | _ => none

/-- A `decimal.Decimal` as produced by `Decimal(str(abs(float(x))))`: either a
finite (necessarily non-negative) value or `Decimal("nan")` (which arises from
a `nan` cell, since `abs(nan)` is `nan`). -/
inductive PyDecimal where
  | nan
  | fin (q : ℚ)
deriving DecidableEq, Repr

/-- The characters removed by `re.sub(r"[₹$€£,\s]", "", ·)`. -/
def isCurrencyOrSep (c : Char) : Bool :=
  c = '₹' || c = '$' || c = '€' || c = '£' || c = ',' || isPyWs c

/-- `CSVParser.parse_amount` (parser.py lines 40-58). -/
def parse_amount (v : PyVal) : Option PyDecimal :=
  match v with
  | .num q => some (.fin |q|)
  | .nan => some .nan
  | _ =>
    let cleaned := pyStripL (pyValStr v).toList
    let cleaned := cleaned.filter (fun c => !isCurrencyOrSep c)
    let cleaned :=
      if startsWithL ['('] cleaned && endsWithL [')'] cleaned then
        '-' :: (cleaned.drop 1).dropLast
      else cleaned
    (pyFloatParse cleaned).map (fun q => .fin |q|)

/-- Days per month, Gregorian. -/
def daysInMonth (y m : ℕ) : ℕ :=
  if m = 2 then
    if (y % 4 = 0 && y % 100 ≠ 0) || y % 400 = 0 then 29 else 28
  else if m = 4 || m = 6 || m = 9 || m = 11 then 30 else 31

/-- `datetime(year, month, day)` construction, which validates its fields (this
is the range check `strptime` performs after its regex match). -/
def mkValidDate (y m d : ℕ) : Option PyDateTime :=
  if 1 ≤ y && y ≤ 9999 && 1 ≤ m && m ≤ 12 && 1 ≤ d && d ≤ daysInMonth y m then
    some ⟨y, m, d, 0, 0, 0⟩
  else none

/-- `strptime`'s `%Y` directive: exactly four digits. -/
def parseY4 : List Char → Option (ℕ × List Char)
  | a :: b :: c :: d :: r =>
    if a.isDigit && b.isDigit && c.isDigit && d.isDigit then
      some (digitVal a * 1000 + digitVal b * 100 + digitVal c * 10 + digitVal d, r)
    else none
  | _ => none

/-- `strptime`'s `%d`/`%m` directives: two digits when they form a value in
range, otherwise one nonzero digit (mirroring the generated regex
alternation). -/
def parseNum2 (hi : ℕ) : List Char → Option (ℕ × List Char)
  | a :: b :: r =>
    if a.isDigit && b.isDigit then
      let v := digitVal a * 10 + digitVal b
      if 1 ≤ v && v ≤ hi then some (v, r)
      else if 1 ≤ digitVal a && digitVal a ≤ 9 then some (digitVal a, b :: r)
      else none
    else if a.isDigit && 1 ≤ digitVal a then some (digitVal a, b :: r)
    else none
  | [a] => if a.isDigit && 1 ≤ digitVal a then some (digitVal a, []) else none
  | [] => none

/-- Month abbreviations matched by `%b` (C locale). -/
def monthAbbrevs : List String :=
  ["jan", "feb", "mar", "apr", "may", "jun", "jul", "aug", "sep", "oct", "nov", "dec"]

/-- Full month names matched by `%B` (C locale). -/
def monthFullNames : List String :=
  ["january", "february", "march", "april", "may", "june", "july", "august",
   "september", "october", "november", "december"]

/-- Case-insensitive month-name match, returning the month number. -/
def parseMonthName (names : List String) (cs : List Char) : Option (ℕ × List Char) :=
  match names.enum.find? (fun p => startsWithL p.2.toList (cs.map Char.toLower)) with
  | some p => some (p.1 + 1, cs.drop p.2.toList.length)
  | none => none

/-- A literal character of a `strptime` format. -/
def expectLit (c : Char) : List Char → Option (List Char)
  | x :: r => if x = c then some r else none
  | [] => none

/-- A whitespace run: `strptime` compiles format whitespace to `\s+`. -/
def expectWs1 : List Char → Option (List Char)
  | x :: r => if isPyWs x then some (r.dropWhile isPyWs) else none
  | [] => none

/-- `%Y-%m-%d`. -/
def strpYmdDash (cs : List Char) : Option PyDateTime := do
  let (y, r1) ← parseY4 cs
  let r2 ← expectLit '-' r1
  let (m, r3) ← parseNum2 12 r2
  let r4 ← expectLit '-' r3
  let (d, r5) ← parseNum2 31 r4
  if r5.isEmpty then mkValidDate y m d else none

/-- `%d-%m-%Y`. -/
def strpDmYDash (cs : List Char) : Option PyDateTime := do
  let (d, r1) ← parseNum2 31 cs
  let r2 ← expectLit '-' r1
  let (m, r3) ← parseNum2 12 r2
  let r4 ← expectLit '-' r3
  let (y, r5) ← parseY4 r4
  if r5.isEmpty then mkValidDate y m d else none

/-- `%m/%d/%Y`. -/
def strpMdYSlash (cs : List Char) : Option PyDateTime := do
  let (m, r1) ← parseNum2 12 cs
  let r2 ← expectLit '/' r1
  let (d, r3) ← parseNum2 31 r2
  let r4 ← expectLit '/' r3
  let (y, r5) ← parseY4 r4
  if r5.isEmpty then mkValidDate y m d else none

/-- `%d/%m/%Y`. -/
def strpDmYSlash (cs : List Char) : Option PyDateTime := do
  let (d, r1) ← parseNum2 31 cs
  let r2 ← expectLit '/' r1
  let (m, r3) ← parseNum2 12 r2
  let r4 ← expectLit '/' r3
  let (y, r5) ← parseY4 r4
  if r5.isEmpty then mkValidDate y m d else none

/-- `%Y/%m/%d`. -/
def strpYmdSlash (cs : List Char) : Option PyDateTime := do
  let (y, r1) ← parseY4 cs
  let r2 ← expectLit '/' r1
  let (m, r3) ← parseNum2 12 r2
  let r4 ← expectLit '/' r3
  let (d, r5) ← parseNum2 31 r4
  if r5.isEmpty then mkValidDate y m d else none

/-- `%b %d, %Y`. -/
def strpAbbrDY (cs : List Char) : Option PyDateTime := do
  let (m, r1) ← parseMonthName monthAbbrevs cs
  let r2 ← expectWs1 r1
  let (d, r3) ← parseNum2 31 r2
  let r4 ← expectLit ',' r3
  let r5 ← expectWs1 r4
  let (y, r6) ← parseY4 r5
  if r6.isEmpty then mkValidDate y m d else none

/-- `%B %d, %Y`. -/
def strpFullDY (cs : List Char) : Option PyDateTime := do
  let (m, r1) ← parseMonthName monthFullNames cs
  let r2 ← expectWs1 r1
  let (d, r3) ← parseNum2 31 r2
  let r4 ← expectLit ',' r3
  let r5 ← expectWs1 r4
  let (y, r6) ← parseY4 r5
  if r6.isEmpty then mkValidDate y m d else none

/-- `%d %b %Y`. -/
def strpDAbbrY (cs : List Char) : Option PyDateTime := do
  let (d, r1) ← parseNum2 31 cs
  let r2 ← expectWs1 r1
  let (m, r3) ← parseMonthName monthAbbrevs r2
  let r4 ← expectWs1 r3
  let (y, r5) ← parseY4 r4
  if r5.isEmpty then mkValidDate y m d else none

/-- `%d %B %Y`. -/
def strpDFullY (cs : List Char) : Option PyDateTime := do
  let (d, r1) ← parseNum2 31 cs
  let r2 ← expectWs1 r1
  let (m, r3) ← parseMonthName monthFullNames r2
  let r4 ← expectWs1 r3
  let (y, r5) ← parseY4 r4
  if r5.isEmpty then mkValidDate y m d else none

/-- The fixed-format cascade of `parse_date`, in source order. -/
def strptimeFormats (cs : List Char) : Option PyDateTime :=
  strpYmdDash cs <|> strpDmYDash cs <|> strpMdYSlash cs <|> strpDmYSlash cs <|>
    strpYmdSlash cs <|> strpAbbrDY cs <|> strpFullDY cs <|> strpDAbbrY cs <|>
    strpDFullY cs

/-- Strict two-digit number. -/
def parse2d : List Char → Option (ℕ × List Char)
  | a :: b :: r =>
    if a.isDigit && b.isDigit then some (digitVal a * 10 + digitVal b, r) else none
  | _ => none

/-- Modelled abstraction of the `pandas.to_datetime` fallback (third-party
library code, outside this repository): it accepts an ISO `YYYY-MM-DD` date
with an optional `HH:MM:SS` time and fails on anything else.  No claim depends
on the exact extension of this flexible parser. -/
def pd_to_datetime (cs : List Char) : Option PyDateTime := do
  let (y, r1) ← parseY4 cs
  let r2 ← expectLit '-' r1
  let (m, r3) ← parse2d r2
  let r4 ← expectLit '-' r3
  let (d, r5) ← parse2d r4
  match r5 with
  | [] =>
    match mkValidDate y m d with
    | some dt => some dt
    | none => none
  | sep :: r6 =>
    if sep = ' ' || sep = 'T' then do
      let (hh, r7) ← parse2d r6
      let r8 ← expectLit ':' r7
      let (mi, r9) ← parse2d r8
      let r10 ← expectLit ':' r9
      let (ss, r11) ← parse2d r10
      if r11.isEmpty && hh ≤ 23 && mi ≤ 59 && ss ≤ 59 then
        match mkValidDate y m d with
        | some dt => some { dt with hour := hh, minute := mi, second := ss }
        | none => none
      else none
    else none

/-- `CSVParser.parse_date` (parser.py lines 60-91): pass datetimes through, try
the fixed formats in order on the stripped string, then the flexible pandas
fallback. -/
def parse_date (v : PyVal) : Option PyDateTime :=
  match v with
  | .datetime d => some d
  | _ =>
    let ds := pyStripL (pyValStr v).toList
    match strptimeFormats ds with
    | some d => some d
    | none => pd_to_datetime ds

/-- `re.sub(r"\s+", " ", ·)`: replace every maximal whitespace run by a single
space (the flag records a pending run). -/
def collapseWsAux : Bool → List Char → List Char
  | pend, [] => if pend then [' '] else []
  | pend, c :: r =>
    if isPyWs c then collapseWsAux true r
    else if pend then ' ' :: c :: collapseWsAux false r
    else c :: collapseWsAux false r

/-- `CSVParser.clean_description` (parser.py lines 93-104): `"Unknown"` for a
missing value, otherwise strip, collapse whitespace, truncate to 500. -/
def clean_description (v : PyVal) : String :=
  match v with
  | .nan => "Unknown"
  | _ => ⟨(collapseWsAux false (pyStripL (pyValStr v).toList)).take 500⟩

/-- `TransactionCreate` (models.py lines 12-23). -/
structure TransactionCreate where
  date : PyDateTime
  description : String
  amount : PyDecimal
  is_income : Bool
  source : String
deriving DecidableEq, Repr

/-- Pydantic validation performed by the `TransactionCreate` constructor:
`description` has `min_length=1, max_length=500` and `amount` has
`decimal_places=2` (which also rejects the non-finite `Decimal("nan")`).
A violation raises `ValidationError`, a subclass of `ValueError`. -/
def validTransaction (description : String) (amount : PyDecimal) : Bool :=
  (1 ≤ description.length && description.length ≤ 500) &&
    (match amount with
     | .nan => false
     | .fin q => (q * 100).den == 1)

/-- One CSV data row, projected to the three cells the parser reads (when the
CSV has no description column, `desc` is ignored). -/
structure Row where
  date : PyVal
  amount : PyVal
  desc : PyVal

namespace CSVParser

/-- The body of the row loop in `CSVParser.parse` (parser.py lines 139-169):
parse date, parse amount, clean (or synthesise) the description, construct the
validated `TransactionCreate`.  All failures (`ValueError` from the two value
parsers, `ValidationError ⊂ ValueError` from the model) are caught by the same
handler and recorded as `"Row {idx+1}: ..."`. -/
def parseRow (hasDesc : Bool) (idx : ℕ) (r : Row) : Except String TransactionCreate :=
  match parse_date r.date with
  | none => .error ("Row " ++ toString (idx + 1) ++ ": cannot parse date")
  | some d =>
    match parse_amount r.amount with
    | none => .error ("Row " ++ toString (idx + 1) ++ ": cannot parse amount")
    | some amt =>
      let description :=
        if hasDesc then clean_description r.desc
        else "Transaction " ++ toString (idx + 1)
      if validTransaction description amt then
        .ok ⟨d, description, amt, false, "csv"⟩
      else .error ("Row " ++ toString (idx + 1) ++ ": validation error")

/-- The accumulating row loop: successfully parsed transactions and per-row
error reasons, both in row order. -/
def parseLoop (hasDesc : Bool) : ℕ → List Row → List TransactionCreate × List String
  | _, [] => ([], [])
  | idx, r :: rest =>
    match parseRow hasDesc idx r with
    | .ok t =>
      let (txs, errs) := parseLoop hasDesc (idx + 1) rest
      (t :: txs, errs)
    | .error e =>
      let (txs, errs) := parseLoop hasDesc (idx + 1) rest
      (txs, e :: errs)

/-- `CSVParser.parse` (parser.py lines 106-174) after column detection: run the
row loop, then raise the aggregate error carrying every recorded reason when no
transaction was produced, else return the transactions (dropping the recorded
reasons). -/
def parse (hasDesc : Bool) (rows : List Row) :
    Except (List String) (List TransactionCreate) :=
  let (transactions, errors) := parseLoop hasDesc 0 rows
  if transactions.isEmpty then .error errors else .ok transactions

end CSVParser

/-- `CSVParser.COLUMN_PATTERNS` (parser.py lines 18-22): each regex is a fully
anchored alternation `^(s₁|…|sₙ)$`, so `re.search` against it holds exactly
when the lowercased header *is* one of the alternatives. -/
def COLUMN_PATTERNS : List (String × List String) :=
  [("date", ["date", "txn_date", "transaction_date", "posted_date", "time",
             "datetime", "timestamp"]),
   ("description", ["description", "desc", "payee", "merchant", "narrative",
                    "details", "particulars", "transaction_type", "memo"]),
   ("amount", ["amount", "value", "sum", "txn_amount", "debit", "credit",
               "paid", "received"])]

/-- `re.search(pattern, col)` for the anchored patterns above. -/
def patternMatches (syns : List String) (col : String) : Bool :=
  syns.contains col

/-- `{c.lower(): c for c in df.columns}`: first occurrence fixes the key's
position, the last occurrence fixes its value. -/
def buildDfCols (cols : List String) : List (String × String) :=
  cols.foldl (fun acc c =>
    let key := c.toLower
    if acc.any (fun p => p.1 == key) then
      acc.map (fun p => if p.1 == key then (p.1, c) else p)
    else acc ++ [(key, c)]) []

/-- `CSVParser.detect_columns` (parser.py lines 27-38): for each canonical
field, the first header (in dict order) whose lowercased name matches the
field's pattern. -/
def detect_columns (cols : List String) : List (String × String) :=
  COLUMN_PATTERNS.foldl (fun m fp =>
    match (buildDfCols cols).find? (fun p => patternMatches fp.2 p.1) with
    | some p => m ++ [(fp.1, p.2)]
    | none => m) []

/-! ### Time-series aggregator (`forecaster.prepare_prophet_data`) -/

/-- A transaction as consumed by the forecaster.  `date` is a naive datetime,
modelled as (epoch day, second of day) so that `tx.date.date()` is the first
component. -/
structure FTransaction where
  date : ℤ × ℕ
  amount : ℚ
  category : Option String
  is_income : Bool

/-- Sum of amounts of the transactions falling on calendar day `d` (what the
pandas `groupby("ds").sum()` entry for `d` is, and `0` for an absent day). -/
def daySum (txs : List FTransaction) (d : ℤ) : ℚ :=
  ((txs.filter (fun t => t.date.1 == d)).map (·.amount)).sum

/-- `prepare_prophet_data` (forecaster.py lines 31-76): filter by category (the
guard is Python truthiness, so `None` and `""` both mean "no filter"), drop
income transactions, fail when nothing remains, group by calendar day, and
reindex over the continuous day range with zero fill. -/
def prepare_prophet_data (txs : List FTransaction) (category : Option String) :
    Option (List (ℤ × ℚ)) :=
  let txs1 :=
    if pyTruthyOptStr category then txs.filter (fun t => t.category == category)
    else txs
  match txs1.filter (fun t => !t.is_income) with
  | [] => none
  | t0 :: rest =>
    let txs2 := t0 :: rest
    let days := txs2.map (fun t => t.date.1)
    let lo := days.foldl min t0.date.1
    let hi := days.foldl max t0.date.1
    some ((List.range ((hi - lo).toNat + 1)).map
      (fun (i : ℕ) => (lo + (i : ℤ), daySum txs2 (lo + (i : ℤ)))))

/-! ### Categorizer response handling (`categorizer.Categorizer.categorize`) -/

/-- The category list `Category.all()` (models.py lines 42-58). -/
def CATEGORIES : List String :=
  ["Groceries", "Dining", "Transport", "Utilities", "Shopping", "Entertainment",
   "Health", "Subscriptions", "Income", "Savings", "Other"]

/-- `if content.startswith("```json"): content = content[7:]`. -/
def fenceStep1 (cs : List Char) : List Char :=
  if startsWithL "```json".toList cs then cs.drop 7 else cs

/-- `if content.startswith("```"): content = content[3:]`. -/
def fenceStep2 (cs : List Char) : List Char :=
  if startsWithL "```".toList cs then cs.drop 3 else cs

/-- `if content.endswith("```"): content = content[:-3]`. -/
def fenceStep3 (cs : List Char) : List Char :=
  if endsWithL "```".toList cs then cs.take (cs.length - 3) else cs

/-- The markdown code-fence stripping in `Categorizer.categorize`
(categorizer.py lines 94-102), on character lists: strip, drop a leading
```` ```json ```` or ```` ``` ````, drop a trailing ```` ``` ````, strip
again. -/
def cleanFencesL (cs : List Char) : List Char :=
  pyStripL (fenceStep3 (fenceStep2 (fenceStep1 (pyStripL cs))))

/-- The code-fence stripping on strings. -/
def cleanFences (content : String) : String :=
  ⟨cleanFencesL content.toList⟩

/-- Python `float(x)` applied to a parsed JSON value (`TypeError` on
null/containers, `ValueError` on a non-numeric string — both propagate to the
broad `except`). -/
def pyFloatOfJson : Json → Option ℚ
  | .num q => some q
  | .bool b => some (if b then 1 else 0)
  | .str s => pyFloatParse s.toList
  | _ => none

/-- The result dict of `Categorizer.categorize` (the wall-clock
`processing_time_ms` field is not modelled; the exact exception text inside
`error` is abbreviated, no claim inspects it). -/
structure CatResult where
  description : String
  category : String
  confidence : ℚ
  error : Option String := none
deriving DecidableEq, Repr

/-- The response-handling tail of `Categorizer.categorize` (categorizer.py
lines 92-138), given the completion's content: clean code fences, parse JSON,
validate the category against the list, coerce the confidence with `float`;
`json.JSONDecodeError` and every other exception degrade to `"Other"` with
confidence `0` and an error entry. -/
def categorizeFromCleaned (description : String) (content : String) : CatResult :=
  match jsonLoads content with
  | none => ⟨description, "Other", 0, some "Parse error"⟩
  | some (Json.obj kvs) =>
    let rawCat := (objGet kvs "category").getD (Json.str "Other")
    let category :=
      match rawCat with
      | .str s => if CATEGORIES.contains s then s else "Other"
      | _ => "Other"
    match pyFloatOfJson ((objGet kvs "confidence").getD (Json.num (1 / 2))) with
    | some conf => ⟨description, category, conf, none⟩
    | none => ⟨description, "Other", 0, some "error"⟩
  | some _ => ⟨description, "Other", 0, some "error"⟩

/-- The full response handling of `Categorizer.categorize`: `None`/empty
content defaults to `"\x7b\x7d"`, code fences are stripped, then the cleaned
text is parsed and validated. -/
def categorizeParse (description : String) (contentOpt : Option String) : CatResult :=
  categorizeFromCleaned description (cleanFences (effectiveContent contentOpt))

/-! ### Claim-side reference definitions and concrete fixtures -/

/-- Claim side (C4): the filtered transaction set — the supplied category (a
supplied category is a non-`None`, non-empty one, which is what the code's
truthiness guard expresses) and then only non-income transactions. -/
def filteredForForecast (txs : List FTransaction) (category : Option String) :
    List FTransaction :=
  (if pyTruthyOptStr category then txs.filter (fun t => t.category == category)
   else txs).filter (fun t => !t.is_income)

/-- Minimum observed calendar day of a transaction list (meaningful when the
list is non-empty). -/
def minDay (l : List FTransaction) : ℤ :=
  (l.map (fun t => t.date.1)).foldl min ((l.map (fun t => t.date.1)).headD 0)

/-- Maximum observed calendar day of a transaction list (meaningful when the
list is non-empty). -/
def maxDay (l : List FTransaction) : ℤ :=
  (l.map (fun t => t.date.1)).foldl max ((l.map (fun t => t.date.1)).headD 0)

/-- Claim side (C7): the per-row error reason, when the row failed. -/
def errOf : Except String TransactionCreate → Option String
  | .error e => some e
  | .ok _ => none

/-- Claim side (C7): the successfully parsed rows, in row order. -/
def rowSuccesses (hasDesc : Bool) (rows : List Row) : List TransactionCreate :=
  (List.enumFrom 0 rows).filterMap
    (fun p => (CSVParser.parseRow hasDesc p.1 p.2).toOption)

/-- Claim side (C7): every failed row's recorded reason, in row order. -/
def rowFailures (hasDesc : Bool) (rows : List Row) : List String :=
  (List.enumFrom 0 rows).filterMap
    (fun p => errOf (CSVParser.parseRow hasDesc p.1 p.2))

/-- A concrete forecast fixture used by witnesses and counterexamples. -/
def fcEx : Forecast :=
  ⟨some "Groceries", "2024-03-01", Json.num 42, 10, 80, 5, 1, 2, none, none⟩

/-- An oracle response whose `suggested_adjustment` is present, non-null
and equal to `0`. -/
def adjZeroContent : String := "\x7b\"suggested_adjustment\": 0\x7d"

/-- An oracle response whose `suggested_adjustment` is `250`. -/
def adj250Content : String := "\x7b\"suggested_adjustment\": 250\x7d"

/-- A well-formed oracle plausibility verdict. -/
def verdictContent : String :=
  "\x7b\"is_plausible\": false, \"reason\": \"too high\", \"suggested_adjustment\": 250\x7d"

/-- The same verdict wrapped in a markdown code fence. -/
def fencedVerdictContent : String := "```json\n" ++ verdictContent ++ "\n```"

/-- A concrete transaction set spanning 2024-01-15..2024-01-17 (epoch days
19737..19739) whose middle day has no transaction. -/
def gapTxs : List FTransaction :=
  [⟨(19737, 36000), 450, some "Dining", false⟩,
   ⟨(19739, 7200), 2500, some "Utilities", false⟩]

/-- A concrete spending alert fixture for dispatch witnesses. -/
def alertEx : SpendingAlert :=
  ⟨"user-123", "Groceries", 6000, 5000, 120, true, true, none⟩

/-! ### Theorems -/

/-- C1: the alert decision function is a pure total function agreeing with the
spec's reference definition everywhere — `pct_used` is `spending/limit*100`
under the zero-division guard and the priority tier is the first match of the
descending cascade — and it produces the five specified concrete decisions.
(Totality holds by construction: `check_spending_alert` is a total Lean
function, the embedding of code that raises no exception.) -/
theorem alert_decision_matches_spec :
    (∀ spending budget_limit budget_pct threshold : ℚ,
      check_spending_alert spending budget_limit budget_pct threshold =
        specEvaluate spending budget_limit budget_pct threshold) ∧
    check_spending_alert 9000 5000 110 5000 =
      ⟨true, some .critical, some 180, some true, some true⟩ ∧
    check_spending_alert 7000 5000 110 5000 =
      ⟨true, some .high, some 140, some true, some true⟩ ∧
    check_spending_alert 5600 5000 110 5000 =
      ⟨true, some .medium, some 112, some true, some true⟩ ∧
    check_spending_alert 5500 10000 110 5000 =
      ⟨true, some .low, some 55, some false, some true⟩ ∧
    check_spending_alert 3000 5000 110 5000 = ⟨false, none, none, none, none⟩ := by
  refine ⟨?_, ?_, ?_, ?_, ?_, ?_⟩
  · intro s l bp th
    simp only [check_spending_alert, specEvaluate, specPctUsed, specTierTable, firstMatch]
    by_cases h1 : (150 : ℚ) ≤ (if 0 < l then s / l * 100 else 0) <;>
      by_cases h2 : (125 : ℚ) ≤ (if 0 < l then s / l * 100 else 0) <;>
        by_cases h3 : bp ≤ (if 0 < l then s / l * 100 else 0) <;>
          by_cases h4 : th ≤ s <;>
            simp [h1, h2, h3, h4]
  · with_unfolding_all rfl
  · with_unfolding_all rfl
  · with_unfolding_all rfl
  · with_unfolding_all rfl
  · with_unfolding_all rfl

/-- C3: amount parsing strips currency symbols, separators and whitespace,
treats a fully parenthesized value as an accounting negative, accepts numeric
values directly, always discards the sign (every finite result is
non-negative, and numeric input yields exactly the absolute value), and fails
on empty, whitespace-only and non-numeric input. -/
theorem parse_amount_magnitude :
    parse_amount (.str "₹1,234.56") = some (.fin (123456 / 100)) ∧
    parse_amount (.str "(500.00)") = some (.fin 500) ∧
    parse_amount (.str "-500.00") = some (.fin 500) ∧
    parse_amount (.str "") = none ∧
    parse_amount (.str "   ") = none ∧
    parse_amount (.str "not-a-number") = none ∧
    (∀ q : ℚ, parse_amount (.num q) = some (.fin |q|)) ∧
    (∀ (v : PyVal) (q : ℚ), parse_amount v = some (.fin q) → 0 ≤ q) := by
  refine ⟨by with_unfolding_all rfl, by with_unfolding_all rfl, by with_unfolding_all rfl,
          by with_unfolding_all rfl, by with_unfolding_all rfl, by with_unfolding_all rfl,
          fun q => rfl, ?_⟩
  intro v q h
  cases v with
  | num q' =>
    simp only [parse_amount, Option.some.injEq, PyDecimal.fin.injEq] at h
    exact h ▸ abs_nonneg q'
  | nan => simp [parse_amount] at h
  | str s =>
    simp only [parse_amount, Option.map_eq_some'] at h
    obtain ⟨q', -, hq⟩ := h
    obtain rfl : |q'| = q := by simpa using hq
    exact abs_nonneg q'
  | datetime d =>
    simp only [parse_amount, Option.map_eq_some'] at h
    obtain ⟨q', -, hq⟩ := h
    obtain rfl : |q'| = q := by simpa using hq
    exact abs_nonneg q'

/-- C3 witness: the non-negativity clause instantiated at the accounting-format
input `"-500.00"`, whose parse result is `500`. -/
theorem parse_amount_magnitude_witness : (0 : ℚ) ≤ 500 :=
  parse_amount_magnitude.2.2.2.2.2.2.2 (.str "-500.00") 500 (by with_unfolding_all rfl)

/-- C5: evaluating the embedded `detect_columns` at the claim's own input
`["Txn Date", "Payee", "Value"]`: the `date` field is **not** mapped (the
fully anchored regex `^(date|txn_date|…)$` cannot match `"txn date"`, whose
separator is a space), while `description` and `amount` are; on exactly
matching headers all three fields are mapped.  This contradicts the claim and
the repository's own unit test `test_detect_columns_alternate`, which asserts
`"date" in column_map` for these headers. -/
theorem detect_columns_txn_date_not_mapped :
    detect_columns ["Txn Date", "Payee", "Value"] =
      [("description", "Payee"), ("amount", "Value")] ∧
    ((detect_columns ["Txn Date", "Payee", "Value"]).map (fun p => p.1)).contains "date" =
      false ∧
    detect_columns ["date", "description", "amount"] =
      [("date", "date"), ("description", "description"), ("amount", "amount")] := by
  refine ⟨by with_unfolding_all rfl, by with_unfolding_all rfl, by with_unfolding_all rfl⟩

/-- C2: the plausibility review never raises: whenever the oracle call fails or
its response does not parse as a JSON object, the returned forecast is the
input forecast with only `llm_sanity_check` set to the skip default
(`is_plausible: true`, `reason: "Check skipped due to error"`) — so
`predicted_amount` and every other field are unchanged; and on a successfully
parsed object, `is_plausible` defaults to `true` when absent. -/
theorem sanity_check_error_handling :
    (∀ (fc : Forecast) (oc : OracleOutcome),
      (∀ kvs, oracleParsed oc ≠ some (Json.obj kvs)) →
      sanity_check_forecast fc oc = { fc with llm_sanity_check := some skipDefault }) ∧
    (∀ (fc : Forecast) (co : Option String) (kvs : List (String × Json)),
      jsonLoads (effectiveContent co) = some (Json.obj kvs) →
      objGet kvs "is_plausible" = none →
      ∃ reason, (sanity_check_forecast fc (.success co)).llm_sanity_check =
        some ⟨Json.bool true, reason⟩) := by
  constructor
  · intro fc oc h
    cases oc with
    | failure => rfl
    | success co =>
      have h' : ∀ kvs, jsonLoads (effectiveContent co) ≠ some (Json.obj kvs) := h
      show applyParsed fc (jsonLoads (effectiveContent co)) = _
      cases hj : jsonLoads (effectiveContent co) with
      | none => rfl
      | some v =>
        cases v with
        | obj kvs => exact absurd hj (h' kvs)
        | null => rfl
        | bool b => rfl
        | num q => rfl
        | str s => rfl
        | arr xs => rfl
  · intro fc co kvs hj habs
    refine ⟨(objGet kvs "reason").getD (Json.str "No issues detected"), ?_⟩
    show (applyParsed fc (jsonLoads (effectiveContent co))).llm_sanity_check = _
    rw [hj]
    simp only [applyParsed, habs, Option.getD_none]

/-- C2 witness: the failure case returns `fcEx` with only the skip default
attached, and an empty-object response defaults `is_plausible` to `true`. -/
theorem sanity_check_error_handling_witness :
    sanity_check_forecast fcEx .failure = { fcEx with llm_sanity_check := some skipDefault } ∧
    ∃ reason, (sanity_check_forecast fcEx (.success (some "\x7b\x7d"))).llm_sanity_check =
      some ⟨Json.bool true, reason⟩ :=
  ⟨sanity_check_error_handling.1 fcEx .failure
      (fun _ h => Option.noConfusion h),
   sanity_check_error_handling.2 fcEx (some "\x7b\x7d") []
      (by with_unfolding_all rfl) (by with_unfolding_all rfl)⟩

/-- C6 counterexample: an oracle response carrying the present, non-null value
`suggested_adjustment = 0` is *not* applied — the review leaves
`predicted_amount = 42` and never sets `adjusted` — refuting the claim that
every non-null numeric value (including 0) overwrites the prediction. -/
theorem suggested_adjustment_zero_not_applied :
    jsonLoads adjZeroContent = some (Json.obj [("suggested_adjustment", Json.num 0)]) ∧
    (sanity_check_forecast fcEx (.success (some adjZeroContent))).predicted_amount =
      Json.num 42 ∧
    (sanity_check_forecast fcEx (.success (some adjZeroContent))).adjusted = none ∧
    ¬((sanity_check_forecast fcEx (.success (some adjZeroContent))).predicted_amount =
        Json.num 0 ∧
      (sanity_check_forecast fcEx (.success (some adjZeroContent))).adjusted = some true) := by
  refine ⟨by with_unfolding_all rfl, by with_unfolding_all rfl, by with_unfolding_all rfl, ?_⟩
  rintro ⟨h1, -⟩
  rw [show (sanity_check_forecast fcEx (.success (some adjZeroContent))).predicted_amount =
        Json.num 42 from by with_unfolding_all rfl] at h1
  injection h1 with h2
  exact absurd h2 (by norm_num)

/-- C6 amended: a present `suggested_adjustment` is applied exactly when its
value is *truthy* (non-null **and** non-zero/non-empty): then
`predicted_amount` is overwritten with it, `adjusted` is set to `true` and the
confidence bounds are untouched; a present but falsy value — in particular the
number `0` — leaves `predicted_amount` and `adjusted` unchanged. -/
theorem suggested_adjustment_truthy (fc : Forecast) (co : Option String)
    (kvs : List (String × Json)) (v : Json)
    (hparse : jsonLoads (effectiveContent co) = some (Json.obj kvs))
    (hget : objGet kvs "suggested_adjustment" = some v) :
    (pyTruthy v = true →
      (sanity_check_forecast fc (.success co)).predicted_amount = v ∧
      (sanity_check_forecast fc (.success co)).adjusted = some true ∧
      (sanity_check_forecast fc (.success co)).confidence_lower = fc.confidence_lower ∧
      (sanity_check_forecast fc (.success co)).confidence_upper = fc.confidence_upper) ∧
    (pyTruthy v = false →
      (sanity_check_forecast fc (.success co)).predicted_amount = fc.predicted_amount ∧
      (sanity_check_forecast fc (.success co)).adjusted = fc.adjusted ∧
      (sanity_check_forecast fc (.success co)).confidence_lower = fc.confidence_lower ∧
      (sanity_check_forecast fc (.success co)).confidence_upper = fc.confidence_upper) := by
  have hbody : sanity_check_forecast fc (.success co) =
      applyParsed fc (jsonLoads (effectiveContent co)) := rfl
  rw [hbody, hparse]
  simp only [applyParsed, hget]
  constructor <;> intro hv <;> simp [hv]

/-- C6 amended witness: the truthy value `250` is applied to `fcEx`. -/
theorem suggested_adjustment_truthy_witness :
    (sanity_check_forecast fcEx (.success (some adj250Content))).predicted_amount =
      Json.num 250 ∧
    (sanity_check_forecast fcEx (.success (some adj250Content))).adjusted = some true ∧
    (sanity_check_forecast fcEx (.success (some adj250Content))).confidence_lower =
      fcEx.confidence_lower ∧
    (sanity_check_forecast fcEx (.success (some adj250Content))).confidence_upper =
      fcEx.confidence_upper :=
  (suggested_adjustment_truthy fcEx (some adj250Content)
      [("suggested_adjustment", Json.num 250)] (Json.num 250)
      (by with_unfolding_all rfl) (by with_unfolding_all rfl)).1
    (by with_unfolding_all rfl)

/-- C9 counterexample: a code-fenced oracle verdict is *not* stripped by the
plausibility reviewer — it fails to parse and degrades to the skip default
with no field applied — while the identical unfenced verdict is parsed and
applied (`is_plausible = false`, `predicted_amount = 250`).  So fence
stripping does not hold at every core call site that parses oracle output. -/
theorem fenced_response_not_stripped_by_reviewer :
    (sanity_check_forecast fcEx (.success (some fencedVerdictContent))).llm_sanity_check =
      some skipDefault ∧
    (sanity_check_forecast fcEx (.success (some fencedVerdictContent))).predicted_amount =
      Json.num 42 ∧
    (sanity_check_forecast fcEx (.success (some fencedVerdictContent))).adjusted = none ∧
    (sanity_check_forecast fcEx (.success (some verdictContent))).llm_sanity_check =
      some ⟨Json.bool false, Json.str "too high"⟩ ∧
    (sanity_check_forecast fcEx (.success (some verdictContent))).predicted_amount =
      Json.num 250 := by
  refine ⟨?_, ?_, ?_, ?_, ?_⟩ <;> with_unfolding_all rfl

/-- Helper: the aggregator fails exactly on an empty filtered set. -/
theorem prepare_eq_none_iff (txs : List FTransaction) (cat : Option String) :
    prepare_prophet_data txs cat = none ↔ filteredForForecast txs cat = [] := by
  simp only [prepare_prophet_data, filteredForForecast]
  cases hf : (if pyTruthyOptStr cat then txs.filter (fun t => t.category == cat)
      else txs).filter (fun t => !t.is_income) with
  | nil => simp
  | cons t0 rest => simp

/-- Helper: on a non-empty filtered set the aggregator returns the zero-filled
continuous series over the observed day range. -/
theorem prepare_eq_some (txs : List FTransaction) (cat : Option String)
    (t0 : FTransaction) (rest : List FTransaction)
    (hf : filteredForForecast txs cat = t0 :: rest) :
    prepare_prophet_data txs cat =
      some ((List.range ((maxDay (t0 :: rest) - minDay (t0 :: rest)).toNat + 1)).map
        (fun (i : ℕ) => (minDay (t0 :: rest) + (i : ℤ),
                   daySum (t0 :: rest) (minDay (t0 :: rest) + (i : ℤ))))) := by
  simp only [filteredForForecast] at hf
  simp only [prepare_prophet_data, hf, minDay, maxDay, List.map_cons, List.headD]

/-- C4: for every transaction sequence and optional category, the aggregator
filters to non-income transactions (and to the supplied category, when one is
supplied), fails exactly when the filtered set is empty, and otherwise returns
a series with exactly one entry per calendar day from the minimum to the
maximum observed day inclusive, each entry carrying the day's transaction sum
(zero for a day with no transactions); the concrete 2024-01-15..2024-01-17 set
with a gap day yields exactly 3 entries with the gap day's sum 0. -/
theorem daily_aggregation_spec :
    (∀ (txs : List FTransaction) (cat : Option String),
      prepare_prophet_data txs cat = none ↔ filteredForForecast txs cat = []) ∧
    (∀ (txs : List FTransaction) (cat : Option String) (series : List (ℤ × ℚ)),
      prepare_prophet_data txs cat = some series →
      series.length =
        (maxDay (filteredForForecast txs cat) - minDay (filteredForForecast txs cat)).toNat
          + 1 ∧
      (∀ (i : ℕ) (h : i < series.length),
        series.get ⟨i, h⟩ =
          (minDay (filteredForForecast txs cat) + (i : ℤ),
           daySum (filteredForForecast txs cat)
             (minDay (filteredForForecast txs cat) + (i : ℤ))))) ∧
    (∀ (txs : List FTransaction) (cat : Option String) (d : ℤ),
      (∀ t ∈ filteredForForecast txs cat, t.date.1 ≠ d) →
      daySum (filteredForForecast txs cat) d = 0) ∧
    prepare_prophet_data gapTxs none =
      some [(19737, 450), (19738, 0), (19739, 2500)] ∧
    (prepare_prophet_data gapTxs none).map List.length = some 3 ∧
    daySum (filteredForForecast gapTxs none) 19738 = 0 := by
  refine ⟨prepare_eq_none_iff, ?_, ?_, by with_unfolding_all rfl,
          by with_unfolding_all rfl, by with_unfolding_all rfl⟩
  · intro txs cat series hser
    cases hf : filteredForForecast txs cat with
    | nil =>
      rw [(prepare_eq_none_iff txs cat).mpr hf] at hser
      exact Option.noConfusion hser
    | cons t0 rest =>
      rw [prepare_eq_some txs cat t0 rest hf] at hser
      obtain rfl : series = _ := (Option.some.injEq _ _).mp hser.symm
      constructor
      · simp
      · intro i h
        simp [List.get_eq_getElem]
  · intro txs cat d hd
    simp only [daySum]
    rw [List.filter_eq_nil_iff.mpr ?_]
    · simp
    · intro t ht
      simpa using hd t ht

/-- C4 witness: the concrete gap series instantiates the general entry
characterisation at index 1 (the gap day, sum 0). -/
theorem daily_aggregation_spec_witness :
    ([((19737 : ℤ), (450 : ℚ)), (19738, 0), (19739, 2500)].length =
      (maxDay (filteredForForecast gapTxs none) -
        minDay (filteredForForecast gapTxs none)).toNat + 1) ∧
    daySum (filteredForForecast gapTxs none) 19738 = 0 :=
  ⟨(daily_aggregation_spec.2.1 gapTxs none
      [((19737 : ℤ), (450 : ℚ)), (19738, 0), (19739, 2500)]
      (by with_unfolding_all rfl)).1,
   daily_aggregation_spec.2.2.1 gapTxs none 19738 (by
      rw [show filteredForForecast gapTxs none = gapTxs from by with_unfolding_all rfl]
      intro t ht
      simp only [gapTxs, List.mem_cons, List.mem_singleton] at ht
      rcases ht with rfl | rfl | h
      · decide
      · decide
      · simp at h)⟩

/-- Helper: the second component of an `enumFrom` member is a list member. -/
theorem snd_mem_of_mem_enumFrom {α : Type} {p : ℕ × α} :
    ∀ {l : List α} {n : ℕ}, p ∈ List.enumFrom n l → p.2 ∈ l := by
  intro l
  induction l with
  | nil => intro n h; simp [List.enumFrom] at h
  | cons a rest ih =>
    intro n h
    rw [show List.enumFrom n (a :: rest) = (n, a) :: List.enumFrom (n + 1) rest from rfl,
       List.mem_cons] at h
    rcases h with h | h
    · rw [h]; exact List.mem_cons_self a rest
    · exact List.mem_cons_of_mem a (ih h)

/-- Helper: the row loop accumulates exactly the per-row successes and the
per-row error reasons, in row order. -/
theorem parseLoop_eq (hasDesc : Bool) :
    ∀ (n : ℕ) (rows : List Row),
      CSVParser.parseLoop hasDesc n rows =
        ((List.enumFrom n rows).filterMap
           (fun p => (CSVParser.parseRow hasDesc p.1 p.2).toOption),
         (List.enumFrom n rows).filterMap
           (fun p => errOf (CSVParser.parseRow hasDesc p.1 p.2))) := by
  intro n rows
  induction rows generalizing n with
  | nil => rfl
  | cons r rest ih =>
    simp only [CSVParser.parseLoop, List.enumFrom, List.filterMap_cons]
    cases hpr : CSVParser.parseRow hasDesc n r with
    | ok t => simp [ih (n + 1), Except.toOption, errOf]
    | error e => simp [ih (n + 1), Except.toOption, errOf]

/-- Helper: a list whose elements all map to `some` keeps its length under
`filterMap`. -/
theorem length_filterMap_of_all_some {α β : Type} (f : α → Option β) :
    ∀ l : List α, (∀ a ∈ l, (f a).isSome = true) → (l.filterMap f).length = l.length := by
  intro l
  induction l with
  | nil => intro _; rfl
  | cons a rest ih =>
    intro h
    have ha := h a (List.mem_cons_self a rest)
    obtain ⟨b, hb⟩ := Option.isSome_iff_exists.mp ha
    simp [List.filterMap_cons, hb, ih (fun x hx => h x (List.mem_cons_of_mem a hx))]

/-- C7: the primary normalization entry point skips each row whose date or
amount fails to parse, recording its reason; it returns exactly the
successfully parsed rows (per-row reasons discarded) when at least one row
succeeds, and raises the aggregate error carrying every row's reason exactly
when no row succeeds. -/
theorem parse_row_failure_policy :
    ∀ (hasDesc : Bool) (rows : List Row),
      (∀ es, CSVParser.parse hasDesc rows = .error es ↔
        (rowSuccesses hasDesc rows = [] ∧ es = rowFailures hasDesc rows)) ∧
      (∀ ts, CSVParser.parse hasDesc rows = .ok ts ↔
        (rowSuccesses hasDesc rows ≠ [] ∧ ts = rowSuccesses hasDesc rows)) ∧
      (rowSuccesses hasDesc rows = [] →
        (rowFailures hasDesc rows).length = rows.length) := by
  intro hasDesc rows
  have hl := parseLoop_eq hasDesc 0 rows
  have hparse : CSVParser.parse hasDesc rows =
      (if (rowSuccesses hasDesc rows).isEmpty then .error (rowFailures hasDesc rows)
       else .ok (rowSuccesses hasDesc rows)) := by
    simp only [CSVParser.parse, hl, rowSuccesses, rowFailures]
  refine ⟨?_, ?_, ?_⟩
  · intro es
    rw [hparse]
    constructor
    · intro h
      by_cases hsE : rowSuccesses hasDesc rows = []
      · rw [if_pos (by simp [hsE])] at h
        exact ⟨hsE, (Except.error.inj h).symm⟩
      · rw [if_neg (by simpa [List.isEmpty_iff] using hsE)] at h
        exact absurd h (by simp)
    · rintro ⟨hsE, rfl⟩
      rw [if_pos (by simp [hsE])]
  · intro ts
    rw [hparse]
    constructor
    · intro h
      by_cases hsE : rowSuccesses hasDesc rows = []
      · rw [if_pos (by simp [hsE])] at h
        exact absurd h (by simp)
      · rw [if_neg (by simpa [List.isEmpty_iff] using hsE)] at h
        exact ⟨hsE, (Except.ok.inj h).symm⟩
    · rintro ⟨hsE, rfl⟩
      rw [if_neg (by simpa [List.isEmpty_iff] using hsE)]
  · intro hs
    have hall : ∀ p ∈ List.enumFrom 0 rows,
        (errOf (CSVParser.parseRow hasDesc p.1 p.2)).isSome = true := by
      intro p hp
      have hnone : (CSVParser.parseRow hasDesc p.1 p.2).toOption = none := by
        have := (List.filterMap_eq_nil_iff.mp hs) p hp
        exact this
      cases hpr : CSVParser.parseRow hasDesc p.1 p.2 with
      | ok t => rw [hpr] at hnone; exact absurd hnone (by simp [Except.toOption])
      | error e => simp [errOf]
    calc (rowFailures hasDesc rows).length
        = (List.enumFrom 0 rows).length :=
          length_filterMap_of_all_some _ _ hall
      _ = rows.length := List.enumFrom_length

/-- C7 witness: with a single row whose date does not parse, no row succeeds
and the aggregate error reason list has one entry per row. -/
theorem parse_row_failure_policy_witness :
    (rowFailures true [⟨.str "not-a-date", .str "1x", .str "d"⟩]).length =
      [(⟨.str "not-a-date", .str "1x", .str "d"⟩ : Row)].length :=
  (parse_row_failure_policy true [⟨.str "not-a-date", .str "1x", .str "d"⟩]).2.2
    (by with_unfolding_all rfl)

/-- C10: in the primary entry point (with a description column), a row whose
date and amount both parse but whose description cell is a string cleaning to
the empty string is skipped — the transaction model's `min_length=1` makes the
constructor raise a `ValidationError`, caught by the same handler as parse
failures — and when every row is of this kind the aggregate all-rows-failed
error is raised. -/
theorem blank_description_rows_skipped :
    (∀ (idx : ℕ) (r : Row) (s : String),
      r.desc = .str s →
      clean_description r.desc = "" →
      (parse_date r.date).isSome = true →
      (parse_amount r.amount).isSome = true →
      CSVParser.parseRow true idx r =
        .error ("Row " ++ toString (idx + 1) ++ ": validation error")) ∧
    (∀ rows : List Row,
      (∀ r ∈ rows, (∃ s, r.desc = .str s ∧ clean_description r.desc = "") ∧
        (parse_date r.date).isSome = true ∧ (parse_amount r.amount).isSome = true) →
      CSVParser.parse true rows = .error (rowFailures true rows)) := by
  have part1 : ∀ (idx : ℕ) (r : Row) (s : String),
      r.desc = .str s →
      clean_description r.desc = "" →
      (parse_date r.date).isSome = true →
      (parse_amount r.amount).isSome = true →
      CSVParser.parseRow true idx r =
        .error ("Row " ++ toString (idx + 1) ++ ": validation error") := by
    intro idx r s hs hclean hd ha
    obtain ⟨d, hd'⟩ := Option.isSome_iff_exists.mp hd
    obtain ⟨a, ha'⟩ := Option.isSome_iff_exists.mp ha
    simp only [CSVParser.parseRow, hd', ha', if_true, hclean]
    have hv : validTransaction "" a = false := by cases a <;> rfl
    rw [hv]
    rfl
  refine ⟨part1, ?_⟩
  intro rows hall
  have hs : rowSuccesses true rows = [] := by
    simp only [rowSuccesses]
    rw [List.filterMap_eq_nil_iff]
    intro p hp
    have hr : p.2 ∈ rows := snd_mem_of_mem_enumFrom hp
    obtain ⟨⟨s, hs1, hs2⟩, hd, ha⟩ := hall p.2 hr
    rw [part1 p.1 p.2 s hs1 hs2 hd ha]
    rfl
  have hl := parseLoop_eq true 0 rows
  simp only [CSVParser.parse, hl, rowFailures]
  have : ((List.enumFrom 0 rows).filterMap
      (fun p => (CSVParser.parseRow true p.1 p.2).toOption)) = [] := hs
  rw [this]
  rfl

/-- C10 witness: a row with a parseable date and amount but a whitespace-only
description is dropped, and (being the only row) triggers the aggregate
error. -/
theorem blank_description_rows_skipped_witness :
    CSVParser.parse true [⟨.str "2024-01-15", .str "450.00", .str "   "⟩] =
      .error (rowFailures true [⟨.str "2024-01-15", .str "450.00", .str "   "⟩]) ∧
    rowFailures true [⟨.str "2024-01-15", .str "450.00", .str "   "⟩] =
      ["Row 1: validation error"] :=
  ⟨blank_description_rows_skipped.2 [⟨.str "2024-01-15", .str "450.00", .str "   "⟩]
      (by
        intro r hr
        rw [List.mem_singleton] at hr
        subst hr
        exact ⟨⟨"   ", rfl, by with_unfolding_all rfl⟩,
               by with_unfolding_all rfl, by with_unfolding_all rfl⟩),
   by with_unfolding_all rfl⟩

/-- C8: dispatch attempts a channel exactly when the three gates hold (enabled
in policy, destination configured — `None`/`""` count as unconfigured —
provider handle supplied); a gated-out channel leaves no result entry; every
attempted channel contributes exactly one `{success, error?, channel}` record
in SMS-before-email order; one channel's outcome or handle never alters the
other channel's entries; with only email enabled and configured the result is
exactly one email entry. -/
theorem dispatch_channel_policy :
    (∀ (svc : AlertService) (config : AlertConfig) (a : SpendingAlert),
      (send_spending_alert svc config a).map (fun r => r.channel) =
        (if config.sms_enabled && pyTruthyOptStr config.phone && svc.twilio.isSome
         then ["sms"] else []) ++
        (if config.email_enabled && pyTruthyOptStr config.email && svc.resend.isSome
         then ["email"] else [])) ∧
    (∀ (svc : AlertService) (config : AlertConfig) (a : SpendingAlert)
        (tw : TwilioClient), svc.twilio = some tw → config.sms_enabled = true →
      pyTruthyOptStr config.phone = true →
      (⟨tw.sendResult.success, tw.sendResult.error, "sms"⟩ : DispatchResult) ∈
        send_spending_alert svc config a) ∧
    (∀ (svc : AlertService) (config : AlertConfig) (a : SpendingAlert)
        (rs : ResendClient), svc.resend = some rs → config.email_enabled = true →
      pyTruthyOptStr config.email = true →
      (⟨rs.sendResult.success, rs.sendResult.error, "email"⟩ : DispatchResult) ∈
        send_spending_alert svc config a) ∧
    (∀ (svc : AlertService) (config : AlertConfig) (a : SpendingAlert)
        (t₁ t₂ : Option TwilioClient),
      (send_spending_alert { svc with twilio := t₁ } config a).filter
          (fun r => r.channel == "email") =
        (send_spending_alert { svc with twilio := t₂ } config a).filter
          (fun r => r.channel == "email")) ∧
    (∀ (svc : AlertService) (config : AlertConfig) (a : SpendingAlert)
        (r₁ r₂ : Option ResendClient),
      (send_spending_alert { svc with resend := r₁ } config a).filter
          (fun r => r.channel == "sms") =
        (send_spending_alert { svc with resend := r₂ } config a).filter
          (fun r => r.channel == "sms")) ∧
    (∀ (rs : ResendClient) (a : SpendingAlert) (uid e : String), e ≠ "" →
      send_spending_alert ⟨none, some rs⟩ ⟨uid, 110, 5000, false, true, none, some e⟩ a =
        [⟨rs.sendResult.success, rs.sendResult.error, "email"⟩]) := by
  refine ⟨?_, ?_, ?_, ?_, ?_, ?_⟩
  · intro svc config a
    obtain ⟨tw, rs⟩ := svc
    cases tw <;> cases rs <;>
      cases hse : config.sms_enabled <;>
        by_cases hp : pyTruthyOptStr config.phone = true <;>
          cases hee : config.email_enabled <;>
            by_cases he : pyTruthyOptStr config.email = true <;>
              simp_all [send_spending_alert]
  · intro svc config a tw htw hse hp
    obtain ⟨tw0, rs0⟩ := svc
    cases htw
    cases rs0 <;> simp [send_spending_alert, hse, hp]
  · intro svc config a rs hrs hee he
    obtain ⟨tw0, rs0⟩ := svc
    cases hrs
    cases tw0 <;>
      cases hse : config.sms_enabled <;>
        by_cases hp : pyTruthyOptStr config.phone = true <;>
          simp_all [send_spending_alert, hee, he]
  · intro svc config a t₁ t₂
    cases t₁ <;> cases t₂ <;> cases svc.resend <;>
      cases hse : config.sms_enabled <;>
        by_cases hp : pyTruthyOptStr config.phone = true <;>
          simp_all [send_spending_alert]
  · intro svc config a r₁ r₂
    cases r₁ <;> cases r₂ <;> cases svc.twilio <;>
      cases hee : config.email_enabled <;>
        by_cases he : pyTruthyOptStr config.email = true <;>
          simp_all [send_spending_alert]
  · intro rs a uid e he
    simp [send_spending_alert, pyTruthyOptStr, he]

/-- C8 witness: a service with only a Resend handle and an email-only policy
yields exactly one email result entry. -/
theorem dispatch_channel_policy_witness :
    send_spending_alert ⟨none, some ⟨⟨true, none⟩⟩⟩
        ⟨"user-123", 110, 5000, false, true, none, some "user@example.com"⟩ alertEx =
      [⟨true, none, "email"⟩] :=
  dispatch_channel_policy.2.2.2.2.2 ⟨⟨true, none⟩⟩ alertEx "user-123" "user@example.com"
    (by decide)


/-- Helper: a string fixed by `strip` has no leading whitespace to drop. -/
theorem dropWhile_of_pyStrip_fix (l : List Char) (h : pyStripL l = l) :
    List.dropWhile isPyWs l = l := by
  have hsub := List.dropWhile_suffix (l := l) isPyWs
  have hlen2 : (List.dropWhile isPyWs ((List.dropWhile isPyWs l).reverse)).length ≤
      (List.dropWhile isPyWs l).length := by
    calc (List.dropWhile isPyWs ((List.dropWhile isPyWs l).reverse)).length
        ≤ (List.dropWhile isPyWs l).reverse.length :=
          (List.dropWhile_suffix isPyWs).sublist.length_le
      _ = (List.dropWhile isPyWs l).length := List.length_reverse _
  have hlen1 : l.length ≤ (List.dropWhile isPyWs l).length := by
    conv_lhs => rw [← h]
    simp only [pyStripL, List.length_reverse]
    exact hlen2
  exact (hsub.sublist.eq_of_length_le hlen1)

/-- Helper: a string fixed by `strip` has no trailing whitespace to drop. -/
theorem revDropWhile_of_pyStrip_fix (l : List Char) (h : pyStripL l = l) :
    List.dropWhile isPyWs l.reverse = l.reverse := by
  have h1 := dropWhile_of_pyStrip_fix l h
  have h2 : (List.dropWhile isPyWs l.reverse).reverse = l := by
    have h' := h
    simp only [pyStripL, h1] at h'
    exact h'
  calc List.dropWhile isPyWs l.reverse
      = (List.dropWhile isPyWs l.reverse).reverse.reverse := (List.reverse_reverse _).symm
    _ = l.reverse := by rw [h2]

/-- Helper: `dropWhile` leaves an append alone when it leaves the non-empty
left part alone. -/
theorem dropWhile_append_fix (p : Char → Bool) (l m : List Char)
    (h : List.dropWhile p l = l) (hne : l ≠ []) :
    List.dropWhile p (l ++ m) = l ++ m := by
  cases l with
  | nil => exact absurd rfl hne
  | cons a t =>
    have ha : p a = false := by
      by_contra hpa
      have hpa' : p a = true := by revert hpa; cases p a <;> simp
      rw [List.dropWhile_cons_of_pos hpa'] at h
      have hlen := congrArg List.length h
      have hle := (List.dropWhile_suffix (l := t) p).sublist.length_le
      simp at hlen
      omega
    rw [List.cons_append, List.dropWhile_cons, if_neg (by simp [ha])]

/-- Helper: a prefix of a prefix is a prefix. -/
theorem startsWithL_of_append (p q l : List Char) (h : startsWithL (p ++ q) l = true) :
    startsWithL p l = true := by
  induction p generalizing l with
  | nil => rfl
  | cons a p' ih =>
    cases l with
    | nil => simp [startsWithL] at h
    | cons b l' =>
      simp only [List.cons_append, startsWithL, Bool.and_eq_true] at h ⊢
      exact ⟨h.1, ih l' h.2⟩

/-- Helper: fence stripping is the identity on a trimmed, unfenced body. -/
theorem cleanFencesL_unfenced (cl : List Char)
    (hstrip : pyStripL cl = cl)
    (hnf : startsWithL "```".toList cl = false)
    (hnb : endsWithL "```".toList cl = false) :
    cleanFencesL cl = cl := by
  have hnf7 : startsWithL "```json".toList cl = false := by
    by_contra h
    have h' : startsWithL "```json".toList cl = true := by
      revert h; cases startsWithL "```json".toList cl <;> simp
    have := startsWithL_of_append "```".toList "json".toList cl
      (by rw [show "```".toList ++ "json".toList = "```json".toList from rfl]; exact h')
    rw [hnf] at this
    exact Bool.noConfusion this
  have hs1 : fenceStep1 cl = cl := by unfold fenceStep1; rw [hnf7]; simp
  have hs2 : fenceStep2 cl = cl := by unfold fenceStep2; rw [hnf]; simp
  have hs3 : fenceStep3 cl = cl := by unfold fenceStep3; rw [hnb]; simp
  unfold cleanFencesL
  rw [hstrip, hs1, hs2, hs3, hstrip]

/-- Helper: fence stripping recovers the trimmed body from its fenced form. -/
theorem cleanFencesL_fenced (cl : List Char) (hstrip : pyStripL cl = cl) (hne : cl ≠ []) :
    cleanFencesL ("```json\n".toList ++ (cl ++ "\n```".toList)) = cl := by
  have hhead := dropWhile_of_pyStrip_fix cl hstrip
  have hrev := revDropWhile_of_pyStrip_fix cl hstrip
  have hA : pyStripL ("```json\n".toList ++ (cl ++ "\n```".toList)) =
      "```json\n".toList ++ (cl ++ "\n```".toList) := by
    unfold pyStripL
    rw [dropWhile_append_fix isPyWs "```json\n".toList _ rfl (by simp)]
    rw [List.reverse_append, List.reverse_append, List.append_assoc]
    rw [dropWhile_append_fix isPyWs ("\n```".toList.reverse) _ rfl (by simp)]
    simp [List.reverse_append, List.append_assoc]
  have hD : endsWithL "```".toList ('\n' :: (cl ++ "\n```".toList)) = true := by
    unfold endsWithL
    rw [show ('\n' :: (cl ++ "\n```".toList)).reverse =
          "\n```".toList.reverse ++ (cl.reverse ++ ['\n']) from by
        simp [List.reverse_append, List.append_assoc]]
    rfl
  have hlen : ('\n' :: (cl ++ "\n```".toList)).length - 3 = cl.length + 2 := by
    simp
  have htake : List.take (cl.length + 2) ('\n' :: (cl ++ "\n```".toList)) =
      '\n' :: (cl ++ ['\n']) := by
    have hsplit : '\n' :: (cl ++ "\n```".toList) =
        (('\n' :: cl) ++ ['\n']) ++ ['`', '`', '`'] := by simp
    rw [hsplit, List.take_left' (by simp)]
    simp
  have hE : pyStripL ('\n' :: (cl ++ ['\n'])) = cl := by
    unfold pyStripL
    rw [List.dropWhile_cons_of_pos (p := isPyWs) (by decide)]
    rw [dropWhile_append_fix isPyWs cl ['\n'] hhead hne]
    rw [show (cl ++ ['\n']).reverse = '\n' :: cl.reverse from by simp]
    rw [List.dropWhile_cons_of_pos (p := isPyWs) (by decide)]
    rw [hrev, List.reverse_reverse]
  have hs1 : fenceStep1 ("```json\n".toList ++ (cl ++ "\n```".toList)) =
      '\n' :: (cl ++ "\n```".toList) := by
    unfold fenceStep1
    rw [show startsWithL "```json".toList ("```json\n".toList ++ (cl ++ "\n```".toList)) = true
        from rfl]
    rw [if_pos rfl]
    with_unfolding_all rfl
  have hs2 : fenceStep2 ('\n' :: (cl ++ "\n```".toList)) = '\n' :: (cl ++ "\n```".toList) := by
    unfold fenceStep2
    rw [show startsWithL "```".toList ('\n' :: (cl ++ "\n```".toList)) = false from rfl]
    simp
  have hs3 : fenceStep3 ('\n' :: (cl ++ "\n```".toList)) = '\n' :: (cl ++ ['\n']) := by
    unfold fenceStep3
    rw [hD, if_pos rfl, hlen, htake]
  unfold cleanFencesL
  rw [hA, hs1, hs2, hs3]
  exact hE

/-- Helper: no JSON value starts with a backtick. -/
theorem parseJsonVal_backtick : ∀ (f : ℕ) (cs t : List Char),
    skipWs cs = '`' :: t → parseJsonVal f cs = none := by
  intro f cs t ht
  cases f with
  | zero => rfl
  | succ f =>
    simp only [parseJsonVal, ht]
    rfl

/-- Helper: `json.loads` rejects any text whose first non-whitespace
character is a backtick (in particular any code-fenced text). -/
theorem jsonLoads_backtick (s : String) (t : List Char) (ht : skipWs s.toList = '`' :: t) :
    jsonLoads s = none := by
  have hdef : jsonLoads s =
      (match parseJsonVal (2 * s.toList.length + 2) s.toList with
       | some (v, rest) => if skipWs rest = [] then some v else none
       | none => none) := rfl
  rw [hdef, parseJsonVal_backtick _ _ t ht]

/-- C9 amended: only the categorizer strips code-fence markers before parsing.
For the plausibility reviewer, any response whose first non-whitespace
character is a backtick — in particular every code-fenced response — fails its
JSON parse and degrades to the skip default with the forecast unchanged; for
the categorizer, wrapping any trimmed, unfenced response body in
```` ```json ... ``` ```` markers yields exactly the same result as the bare
body. -/
theorem fence_stripping_sites :
    (∀ (fc : Forecast) (s : String) (t : List Char), skipWs s.toList = '`' :: t →
      sanity_check_forecast fc (.success (some s)) =
        { fc with llm_sanity_check := some skipDefault }) ∧
    (∀ (desc c : String),
      pyStrip c = c → c ≠ "" →
      startsWithL "```".toList c.toList = false →
      endsWithL "```".toList c.toList = false →
      categorizeParse desc (some ("```json\n" ++ c ++ "\n```")) =
        categorizeParse desc (some c)) := by
  constructor
  · intro fc s t ht
    have hne : s ≠ "" := by
      intro h; subst h; simp [skipWs] at ht
    show applyParsed fc (jsonLoads (effectiveContent (some s))) = _
    rw [show effectiveContent (some s) = s from by
      simp only [effectiveContent]; rw [if_neg hne]]
    rw [jsonLoads_backtick s t ht]
    rfl
  · intro desc c hstrip hne hnf hnb
    have hstripL : pyStripL c.toList = c.toList := congrArg String.toList hstrip
    have hclne : c.toList ≠ [] := by
      intro h
      apply hne
      have h2 : c = ⟨c.toList⟩ := rfl
      rw [h2, h]
    have hflist : ("```json\n" ++ c ++ "\n```").toList =
        "```json\n".toList ++ (c.toList ++ "\n```".toList) := by
      show ("```json\n" ++ c ++ "\n```").data = _
      simp [String.data_append, List.append_assoc]
    have hFne : ("```json\n" ++ c ++ "\n```") ≠ "" := by
      intro h
      have h2 := congrArg String.toList h
      rw [hflist] at h2
      simp at h2
    unfold categorizeParse
    rw [show effectiveContent (some ("```json\n" ++ c ++ "\n```")) =
          "```json\n" ++ c ++ "\n```" from by
      simp only [effectiveContent]; rw [if_neg hFne]]
    rw [show effectiveContent (some c) = c from by
      simp only [effectiveContent]; rw [if_neg hne]]
    refine congrArg (categorizeFromCleaned desc) ?_
    unfold cleanFences
    rw [hflist]
    rw [cleanFencesL_fenced c.toList hstripL hclne,
        cleanFencesL_unfenced c.toList hstripL hnf hnb]

/-- C9 amended witness: the concrete fenced verdict degrades to the skip
default in the reviewer, and a concrete fenced categorizer verdict is handled
like its unfenced form. -/
theorem fence_stripping_sites_witness :
    sanity_check_forecast fcEx (.success (some fencedVerdictContent)) =
      { fcEx with llm_sanity_check := some skipDefault } ∧
    categorizeParse "Swiggy order" (some ("```json\n" ++ verdictContent ++ "\n```")) =
      categorizeParse "Swiggy order" (some verdictContent) :=
  ⟨fence_stripping_sites.1 fcEx fencedVerdictContent
      ("``json\n" ++ verdictContent ++ "\n```").toList (by with_unfolding_all rfl),
   fence_stripping_sites.2 "Swiggy order" verdictContent
      (by with_unfolding_all rfl) (by decide)
      (by with_unfolding_all rfl) (by with_unfolding_all rfl)⟩

end FinAI
